import Mathlib

/-!
Verification development for the OAuth 2.1 client core (`src/client/auth.ts`
of the ModelContextProtocol TypeScript SDK).

The TypeScript source is shallowly embedded:

* URLs are modelled as a record of an opaque origin string, a pathname
  given as a list of characters, and a query given as an association list
  of key/value pairs.  Resolution of a root-relative reference against a
  base URL is modelled as taking the base's origin together with the
  reference path; this is faithful to the WHATWG resolution the code
  performs for pathnames that start with a single slash, which is the
  domain assumed throughout (stated as a hypothesis where it matters).
* Fallible TypeScript code (thrown exceptions) is modelled with `Except`;
  the distinct `throw new ...Error(...)` sites of the source are mapped to
  distinct constructors of an `AuthError` type.
* HTTP traffic is modelled by oracles: a fetch oracle maps a request URL
  and a with-headers flag to the outcome of one `fetchFn` invocation, so
  the retry/fallback logic of the source can be traced deterministically.
* Zod schemas live outside the provided source tree (`shared/auth.js`);
  where a claim needs them they are modelled from the spec's data-model
  section, with the required/optional split noted on the definition.
-/

set_option linter.unusedVariables false

deriving instance DecidableEq for Except

namespace MCP

/-- RFC 6749 section 5.2 error codes, as used by the `OAUTH_ERRORS` table of
`server/auth/errors.js`.  `serverError` doubles as the fallback class
`ServerError` that `parseErrorResponse` uses for unrecognized bodies. -/
inductive OAuthErrorCode where
  | invalidRequest
  | invalidClient
  | invalidGrant
  | unauthorizedClient
  | unsupportedGrantType
  | invalidScope
  | accessDenied
  | unsupportedResponseType
  | serverError
  | temporarilyUnavailable
deriving DecidableEq, Repr

/-- Discovery endpoint kind, the `type` tag of `buildDiscoveryUrls`. -/
inductive UrlType where
  | oauth
  | oidc
deriving DecidableEq, Repr

/-- Model of a WHATWG `URL`: opaque origin, pathname as characters, and the
query as an ordered key/value list (the model of `URLSearchParams`). -/
structure Url where
  origin : String
  pathname : List Char
  query : List (String × String) := []
deriving DecidableEq, Repr

/-- One constructor per distinct `throw` site of the source that the claims
touch.  Errors of the `OAuthError` class hierarchy are `oauth code`. -/
inductive AuthError where
  | oauth (code : OAuthErrorCode)
  | notImplementedPRM
  | httpPRM (status : Nat)
  | corsDiscovery (url : Url) (t : UrlType)
  | httpDiscovery (status : Nat) (url : Url) (t : UrlType)
  | incompatibleOidc (url : Url)
  | incompatibleResponseType
  | incompatibleCodeChallenge
  | incompatibleGrantType
  | incompatibleRegistration
  | missingClientSecret
  | resourceMismatch
  | stateMissingClientInfo
  | registrationNotSaveable
  | tokenParseFailed
  | fetchThrew
deriving DecidableEq, Repr

/-- Transport-kind errors: network/CORS failures (spec section 7). -/
def AuthError.isTransport : AuthError → Bool
  | .corsDiscovery _ _ => true
  | _ => false

/-- Membership in the `OAuthError` class hierarchy (`error instanceof
OAuthError` in the source; `ServerError` is a subclass). -/
def AuthError.isOAuthFamily : AuthError → Bool
  | .oauth _ => true
  | _ => false

/-- Model of `ClientInformation`: `client_id` mandatory, `client_secret` optional
(`undefined` denotes a public client). -/
structure ClientInfo where
  client_id : String
  client_secret : Option String := none
deriving DecidableEq, Repr

/-- The `ClientAuthMethod` union type of the source. -/
inductive ClientAuthMethod where
  | client_secret_basic
  | client_secret_post
  | noneMethod
deriving DecidableEq, Repr

/-- Embedding of `selectClientAuthMethod` (auth.ts lines 154-180). -/
def selectClientAuthMethod (clientInformation : ClientInfo)
    (supportedMethods : List String) : ClientAuthMethod :=
  let hasClientSecret := clientInformation.client_secret.isSome
  if supportedMethods.length = 0 then
    if hasClientSecret then .client_secret_post else .noneMethod
  else if hasClientSecret && supportedMethods.contains "client_secret_basic" then
    .client_secret_basic
  else if hasClientSecret && supportedMethods.contains "client_secret_post" then
    .client_secret_post
  else if supportedMethods.contains "none" then
    .noneMethod
  else if hasClientSecret then .client_secret_post else .noneMethod

/-- The decision table of spec section 4.3, written from the spec's words:
rows are tried top to bottom. -/
def specClientAuthDecision (clientInformation : ClientInfo)
    (serverList : List String) : ClientAuthMethod :=
  let hasSecret := clientInformation.client_secret.isSome
  if serverList.isEmpty then
    if hasSecret then .client_secret_post else .noneMethod
  else if serverList.contains "client_secret_basic" && hasSecret then
    .client_secret_basic
  else if serverList.contains "client_secret_post" && hasSecret then
    .client_secret_post
  else if serverList.contains "none" then
    .noneMethod
  else if hasSecret then .client_secret_post else .noneMethod

/-- The base64 sigils used by `btoa`. -/
def base64Chars : List Char :=
  ("ABCDEFGHIJKLMNOPQRSTUVWXYZabcdefghijklmnopqrstuvwxyz0123456789+/").toList

/-- Encode byte triples into base64 sigils (model of the `btoa` builtin). -/
def btoaGo : List Nat → List Char
  | [] => []
  | [a] => [base64Chars.getD (a / 4) 'A', base64Chars.getD (a % 4 * 16) 'A', '=', '=']
  | [a, b] => [base64Chars.getD (a / 4) 'A', base64Chars.getD (a % 4 * 16 + b / 16) 'A',
      base64Chars.getD (b % 16 * 4) 'A', '=']
  | a :: b :: c :: rest =>
    [base64Chars.getD (a / 4) 'A', base64Chars.getD (a % 4 * 16 + b / 16) 'A',
      base64Chars.getD (b % 16 * 4 + c / 64) 'A', base64Chars.getD (c % 64) 'A'] ++ btoaGo rest

/-- Model of the `btoa` builtin on the code points of the string. -/
def btoa (s : String) : String :=
  String.mk (btoaGo (s.toList.map Char.toNat))

/-- Model of `URLSearchParams.set` (also used for `Headers.set`): replace the
first entry with the given key, drop any further entries with that key, or
append when the key is absent. -/
def setParam : List (String × String) → String → String → List (String × String)
  | [], k, v => [(k, v)]
  | p :: rest, k, v =>
    if p.1 = k then (k, v) :: rest.filter (fun q => q.1 ≠ k)
    else p :: setParam rest k v

/-- Embedding of `applyBasicAuth` (auth.ts lines 222-229).  The source guard
is `!clientSecret`, so both an absent and an empty-string secret fail. -/
def applyBasicAuth (clientId : String) (clientSecret : Option String)
    (headers : List (String × String)) : Except AuthError (List (String × String)) :=
  match clientSecret with
  | none => .error .missingClientSecret
  | some s =>
    if s = "" then .error .missingClientSecret
    else .ok (setParam headers "Authorization" ("Basic " ++ btoa (clientId ++ ":" ++ s)))

/-- Embedding of `applyPostAuth` (auth.ts lines 234-239); the secret is only
set when truthy. -/
def applyPostAuth (clientId : String) (clientSecret : Option String)
    (params : List (String × String)) : List (String × String) :=
  let params := setParam params "client_id" clientId
  match clientSecret with
  | some s => if s = "" then params else setParam params "client_secret" s
  | none => params

/-- Embedding of `applyPublicAuth` (auth.ts lines 244-246). -/
def applyPublicAuth (clientId : String) (params : List (String × String)) :
    List (String × String) :=
  setParam params "client_id" clientId

/-- Embedding of `applyClientAuthentication` (auth.ts lines 196-217),
returning the updated headers and body parameters. -/
def applyClientAuthentication (method : ClientAuthMethod)
    (clientInformation : ClientInfo) (headers params : List (String × String)) :
    Except AuthError (List (String × String) × List (String × String)) :=
  match method with
  | .client_secret_basic =>
    match applyBasicAuth clientInformation.client_id clientInformation.client_secret headers with
    | .error e => .error e
    | .ok h => .ok (h, params)
  | .client_secret_post =>
    .ok (headers, applyPostAuth clientInformation.client_id clientInformation.client_secret params)
  | .noneMethod =>
    .ok (headers, applyPublicAuth clientInformation.client_id params)

/-- The trailing-slash strip performed inline by `buildWellKnownPath` and
`buildDiscoveryUrls` (`pathname.slice(0, -1)` when it ends with a slash). -/
def stripTrailing (p : List Char) : List Char :=
  if p.getLast? = some '/' then p.dropLast else p

/-- One `(url, type)` entry of the discovery list. -/
structure DiscoveryEntry where
  url : Url
  type : UrlType
deriving DecidableEq, Repr

/-- The `/.well-known/oauth-authorization-server` path literal. -/
def oauthASWellKnown : List Char := ("/.well-known/oauth-authorization-server").toList

/-- The `/.well-known/openid-configuration` path literal. -/
def oidcWellKnown : List Char := ("/.well-known/openid-configuration").toList

/-- Embedding of `buildDiscoveryUrls` (auth.ts lines 669-723). -/
def buildDiscoveryUrls (authorizationServerUrl : Url) : List DiscoveryEntry :=
  let url := authorizationServerUrl
  let hasPath := url.pathname ≠ ['/']
  if ¬hasPath then
    [⟨⟨url.origin, oauthASWellKnown, []⟩, .oauth⟩,
     ⟨⟨url.origin, oidcWellKnown, []⟩, .oidc⟩]
  else
    let pathname := stripTrailing url.pathname
    [⟨⟨url.origin, oauthASWellKnown ++ pathname, []⟩, .oauth⟩,
     ⟨⟨url.origin, oauthASWellKnown, []⟩, .oauth⟩,
     ⟨⟨url.origin, oidcWellKnown ++ pathname, []⟩, .oidc⟩,
     ⟨⟨url.origin, pathname ++ oidcWellKnown, []⟩, .oidc⟩]

/-- An HTTP response whose body has already passed schema validation and is
abstracted to the parsed payload `β` (schema-failure throws are outside the
claims about discovery decisions). -/
structure Resp (β : Type) where
  status : Nat
  body : β
deriving DecidableEq, Repr

/-- Model of `Response.ok`: status in the 2xx range. -/
def respOk (status : Nat) : Bool :=
  200 ≤ status && status < 300

/-- Outcome of a single `fetchFn` invocation: a response, a `TypeError`
(the CORS-style failure), or any other thrown error. -/
inductive FetchAttempt (β : Type) where
  | success (r : Resp β)
  | typeError
  | otherError
deriving DecidableEq, Repr

/-- A fetch oracle: for each request URL and with-headers flag, the outcome
of invoking `fetchFn` there. -/
def FetchOracle (β : Type) := Url → Bool → FetchAttempt β

/-- Embedding of `fetchWithCorsRetry` (auth.ts lines 515-534) at one URL:
first attempt with headers, on `TypeError` one retry without headers, a
second `TypeError` yields no response (`undefined`); other thrown errors
propagate. -/
def fetchWithCorsRetry (attempt : Bool → FetchAttempt β) :
    Except AuthError (Option (Resp β)) :=
  match attempt true with
  | .success r => .ok (some r)
  | .otherError => .error .fetchThrew
  | .typeError =>
    match attempt false with
    | .success r => .ok (some r)
    | .otherError => .error .fetchThrew
    | .typeError => .ok none

/-- Embedding of `shouldAttemptFallback` (auth.ts lines 571-573). -/
def shouldAttemptFallback (response : Option (Resp β)) (pathname : List Char) : Bool :=
  match response with
  | none => true
  | some r => r.status == 404 && pathname ≠ ['/']

/-- The `/.well-known/{wellKnownType}` path of `buildWellKnownPath`. -/
def wellKnownListPath (wellKnownType : String) : List Char :=
  ("/.well-known/" ++ wellKnownType).toList

/-- Embedding of `discoverMetadataWithFallback` (auth.ts lines 578-606),
additionally returning the list of URLs requested, in order. -/
def discoverMetadataWithFallback (issuer : Url) (wellKnownType : String)
    (oracle : FetchOracle β) (metadataUrl : Option Url) :
    Except AuthError (Option (Resp β)) × List Url :=
  let url : Url :=
    match metadataUrl with
    | some m => m
    | none =>
      ⟨issuer.origin, wellKnownListPath wellKnownType ++ stripTrailing issuer.pathname,
        issuer.query⟩
  match fetchWithCorsRetry (oracle url) with
  | .error e => (.error e, [url])
  | .ok r1 =>
    if metadataUrl.isNone && shouldAttemptFallback r1 issuer.pathname then
      let rootUrl : Url := ⟨issuer.origin, wellKnownListPath wellKnownType, []⟩
      match fetchWithCorsRetry (oracle rootUrl) with
      | .error e => (.error e, [url, rootUrl])
      | .ok r2 => (.ok r2, [url, rootUrl])
    else (.ok r1, [url])

/-- Modelled from the spec: `ProtectedResourceMetadata` (RFC 9728 payload,
spec section 3) with `resource` and the ordered `authorization_servers`
list; the Zod schema itself (`shared/auth.js`) is not part of the provided
source. -/
structure PRMeta where
  resource : Url
  authorization_servers : Option (List Url) := none
deriving DecidableEq, Repr

/-- Modelled from the spec: `AuthorizationServerMetadata` (spec section 3),
restricted to the fields the core consumes; endpoint URLs are stored
already parsed. -/
structure ASMeta where
  issuer : String := ""
  authorization_endpoint : Url
  token_endpoint : Url
  registration_endpoint : Option Url := none
  response_types_supported : List String := []
  grant_types_supported : Option (List String) := none
  code_challenge_methods_supported : Option (List String) := none
  token_endpoint_auth_methods_supported : Option (List String) := none
deriving DecidableEq, Repr

/-- The path-aware protected-resource discovery URL
(`/.well-known/oauth-protected-resource{path}` with the issuer's query). -/
def prmPathUrl (serverUrl : Url) : Url :=
  ⟨serverUrl.origin,
    wellKnownListPath "oauth-protected-resource" ++ stripTrailing serverUrl.pathname,
    serverUrl.query⟩

/-- The root protected-resource discovery URL used by the fallback. -/
def prmRootUrl (serverUrl : Url) : Url :=
  ⟨serverUrl.origin, wellKnownListPath "oauth-protected-resource", []⟩

/-- Embedding of `discoverOAuthProtectedResourceMetadata`
(auth.ts lines 485-510), returning the requested URL trace alongside the
result.  The source throws the same generic not-implemented `Error` both
when the final response is a 404 and when there is no response at all. -/
def discoverOAuthProtectedResourceMetadata (serverUrl : Url)
    (resourceMetadataUrl : Option Url) (oracle : FetchOracle PRMeta) :
    Except AuthError PRMeta × List Url :=
  match discoverMetadataWithFallback serverUrl "oauth-protected-resource" oracle
      resourceMetadataUrl with
  | (.error e, tr) => (.error e, tr)
  | (.ok none, tr) => (.error .notImplementedPRM, tr)
  | (.ok (some resp), tr) =>
    if resp.status == 404 then (.error .notImplementedPRM, tr)
    else if respOk resp.status then (.ok resp.body, tr)
    else (.error (.httpPRM resp.status), tr)

/-- The candidate loop of `discoverAuthorizationServerMetadata`
(auth.ts lines 757-787): no response after the headerless retry is a fatal
CORS error naming the candidate, any 4xx continues with the next candidate,
any other non-2xx is fatal, a 2xx is returned after the kind-specific
validation (OIDC must advertise S256). -/
def discoverASLoop (oracle : FetchOracle ASMeta) :
    List DiscoveryEntry → Except AuthError (Option ASMeta)
  | [] => .ok none
  | e :: rest =>
    match fetchWithCorsRetry (oracle e.url) with
    | .error err => .error err
    | .ok none => .error (.corsDiscovery e.url e.type)
    | .ok (some r) =>
      if respOk r.status then
        match e.type with
        | .oauth => .ok (some r.body)
        | .oidc =>
          if (r.body.code_challenge_methods_supported.getD []).contains "S256" then
            .ok (some r.body)
          else .error (.incompatibleOidc e.url)
      else if 400 ≤ r.status && r.status < 500 then
        discoverASLoop oracle rest
      else .error (.httpDiscovery r.status e.url e.type)

/-- Embedding of `discoverAuthorizationServerMetadata`
(auth.ts lines 741-790). -/
def discoverAuthorizationServerMetadata (authorizationServerUrl : Url)
    (oracle : FetchOracle ASMeta) : Except AuthError (Option ASMeta) :=
  discoverASLoop oracle (buildDiscoveryUrls authorizationServerUrl)

/-- Serialize a query (model of `URL.href`, used only as an opaque value). -/
def queryString : List (String × String) → String
  | [] => ""
  | ps => "?" ++ String.intercalate "&" (ps.map (fun p => p.1 ++ "=" ++ p.2))

/-- Serialization of a model URL, the `URL.href` accessor. -/
def Url.href (u : Url) : String :=
  u.origin ++ String.mk u.pathname ++ queryString u.query

/-- Substring test, the model of `String.prototype.includes`. -/
def containsSub (pat : List Char) : List Char → Bool
  | [] => pat.isEmpty
  | c :: t => pat.isPrefixOf (c :: t) || containsSub pat t

/-- Truthiness of `scope?.includes("offline_access")` (auth.ts line 860). -/
def scopeHasOfflineAccess (scope : Option String) : Bool :=
  match scope with
  | some s => containsSub ("offline_access").toList s.toList
  | none => false

/-- The PKCE pair produced by the `pkce-challenge` library; the generator is
random, so the pair is threaded in as an argument. -/
structure PkcePair where
  code_verifier : String
  code_challenge : String
deriving DecidableEq, Repr

/-- The query construction of `startAuthorization` (auth.ts lines 843-869):
parameters are set in source order, `prompt=consent` is appended when the
scope string contains the substring `offline_access`, and the resource is
set last.  `state` and `scope` are only set when truthy. -/
def buildAuthUrl (base : Url) (clientId : String) (challenge : PkcePair)
    (redirectUrl : String) (state scope : Option String) (resource : Option Url) : Url :=
  let q := setParam base.query "response_type" "code"
  let q := setParam q "client_id" clientId
  let q := setParam q "code_challenge" challenge.code_challenge
  let q := setParam q "code_challenge_method" "S256"
  let q := setParam q "redirect_uri" redirectUrl
  let q := match state with
    | some s => if s = "" then q else setParam q "state" s
    | none => q
  let q := match scope with
    | some s => if s = "" then q else setParam q "scope" s
    | none => q
  let q := if scopeHasOfflineAccess scope then q ++ [("prompt", "consent")] else q
  let q := match resource with
    | some r => setParam q "resource" r.href
    | none => q
  ⟨base.origin, base.pathname, q⟩

/-- Embedding of `startAuthorization` (auth.ts lines 795-872).  With
metadata the endpoint is `metadata.authorization_endpoint` after the
`code` / `S256` compatibility checks; without metadata the endpoint is
`new URL("/authorize", authorizationServerUrl)`, which resolves to
`/authorize` at the server URL's origin. -/
def startAuthorization (authorizationServerUrl : Url) (metadata : Option ASMeta)
    (clientInformation : ClientInfo) (redirectUrl : String)
    (scope state : Option String) (resource : Option Url) (challenge : PkcePair) :
    Except AuthError (Url × String) :=
  match metadata with
  | some m =>
    if ¬ m.response_types_supported.contains "code" then
      .error .incompatibleResponseType
    else if ¬ (m.code_challenge_methods_supported.getD []).contains "S256" then
      .error .incompatibleCodeChallenge
    else
      .ok (buildAuthUrl m.authorization_endpoint clientInformation.client_id challenge
        redirectUrl state scope resource, challenge.code_verifier)
  | none =>
    .ok (buildAuthUrl ⟨authorizationServerUrl.origin, ("/authorize").toList, []⟩
      clientInformation.client_id challenge redirectUrl state scope resource,
      challenge.code_verifier)

/-- The JSON body of a token-endpoint response: every field optional, plus
the RFC 6749 `error` code carried by non-2xx bodies (as understood by
`parseErrorResponse`; an unparseable body maps to `serverError`). -/
structure TokenRespBody where
  access_token : Option String := none
  token_type : Option String := none
  refresh_token : Option String := none
  expires_in : Option Nat := none
  scope : Option String := none
  errorCode : Option OAuthErrorCode := none
deriving DecidableEq, Repr

/-- Modelled from the spec: `OAuthTokens` (spec section 3) with
`access_token` required and `refresh_token`, `token_type`, `expires_in`,
`scope` optional; the `OAuthTokensSchema` Zod object lives in
`shared/auth.js`, outside the provided source. -/
structure OAuthTokens where
  access_token : String
  token_type : Option String := none
  refresh_token : Option String := none
  expires_in : Option Nat := none
  scope : Option String := none
deriving DecidableEq, Repr

/-- Modelled from the spec: `OAuthTokensSchema.parse`, requiring
`access_token` and passing the optional fields through. -/
def parseOAuthTokens (b : TokenRespBody) : Option OAuthTokens :=
  match b.access_token with
  | none => none
  | some a => some ⟨a, b.token_type, b.refresh_token, b.expires_in, b.scope⟩

/-- Embedding of `refreshAuthorization` (auth.ts lines 974-1043).  The
token-endpoint exchange itself is abstracted by the `response` argument;
everything around it (grant-type check, client authentication, the error
path, and the `refresh_token` carry-forward spread of line 1042) is
modelled from the source. -/
def refreshAuthorization (authorizationServerUrl : Url) (metadata : Option ASMeta)
    (clientInformation : ClientInfo) (refreshToken : String) (resource : Option Url)
    (useCustomClientAuthentication : Bool) (response : Resp TokenRespBody) :
    Except AuthError OAuthTokens :=
  let grantCheck : Except AuthError Url :=
    match metadata with
    | some m =>
      match m.grant_types_supported with
      | some gs =>
        if gs.contains "refresh_token" then .ok m.token_endpoint
        else .error .incompatibleGrantType
      | none => .ok m.token_endpoint
    | none => .ok ⟨authorizationServerUrl.origin, ("/token").toList, []⟩
  match grantCheck with
  | .error e => .error e
  | .ok _ =>
    let params : List (String × String) :=
      [("grant_type", "refresh_token"), ("refresh_token", refreshToken)]
    let headers : List (String × String) :=
      [("Content-Type", "application/x-www-form-urlencoded")]
    let authStep : Except AuthError (List (String × String) × List (String × String)) :=
      if useCustomClientAuthentication then .ok (headers, params)
      else
        let supportedMethods :=
          match metadata with
          | some md => md.token_endpoint_auth_methods_supported.getD []
          | none => []
        applyClientAuthentication
          (selectClientAuthMethod clientInformation supportedMethods)
          clientInformation headers params
    match authStep with
    | .error e => .error e
    | .ok _ =>
      if respOk response.status then
        match parseOAuthTokens
            { response.body with
              refresh_token := some (response.body.refresh_token.getD refreshToken) } with
        | some t => .ok t
        | none => .error .tokenParseFailed
      else .error (.oauth (response.body.errorCode.getD .serverError))

/-- Find the text right after the first occurrence of `pat` (the anchor step
of the `resource_metadata="([^"]*)"` regular expression). -/
def afterFirst (pat : List Char) : List Char → Option (List Char)
  | [] => if pat.isEmpty then some [] else none
  | c :: t =>
    if pat.isPrefixOf (c :: t) then some ((c :: t).drop pat.length)
    else afterFirst pat t

/-- Model of `new URL(value)` restricted to absolute http(s) URLs: scheme
prefix, non-empty host, then the path (empty path normalizes to `/`).
Anything else fails to parse, the model of the constructor throwing. -/
def parseUrlModel (s : List Char) : Option Url :=
  let parseRest := fun (scheme : String) (rest : List Char) =>
    let host := rest.takeWhile (fun c => c ≠ '/')
    let path := rest.dropWhile (fun c => c ≠ '/')
    if host.isEmpty then none
    else some (⟨scheme ++ String.mk host, if path.isEmpty then ['/'] else path, []⟩ : Url)
  if ("https://").toList.isPrefixOf s then parseRest "https://" (s.drop 8)
  else if ("http://").toList.isPrefixOf s then parseRest "http://" (s.drop 7)
  else none

/-- Embedding of `extractResourceMetadataUrl` (auth.ts lines 454-477): split
the header on single spaces, require the first chunk to lowercase to
`bearer` and the second chunk to exist and be non-empty (`!scheme`), then
capture the first `resource_metadata="([^"]*)"` group and parse it. -/
def extractResourceMetadataUrl (wwwAuthenticate : Option String) : Option Url :=
  match wwwAuthenticate with
  | none => none
  | some h =>
    let parts := h.toList.splitOn ' '
    let type := parts.headD []
    let schemeTruthy : Bool :=
      match parts[1]? with
      | some (_ :: _) => true
      | _ => false
    if (type.map Char.toLower == ("bearer").toList) && schemeTruthy then
      match afterFirst (("resource_metadata=").toList ++ ['"']) h.toList with
      | none => none
      | some rest =>
        if rest.contains '"' then parseUrlModel (rest.takeWhile (fun c => c ≠ '"'))
        else none
    else none

/-- The condition of claim C9 as stated: header present, scheme token
case-insensitively `bearer`, and a `resource_metadata` parameter whose
value parses as a URL. -/
def specExtractCondition (wwwAuthenticate : Option String) : Bool :=
  match wwwAuthenticate with
  | none => false
  | some h =>
    ((h.toList.splitOn ' ').headD []).map Char.toLower = ("bearer").toList &&
    (match afterFirst (("resource_metadata=").toList ++ ['"']) h.toList with
     | none => false
     | some rest =>
       rest.contains '"' &&
       (parseUrlModel (rest.takeWhile (fun c => c ≠ '"'))).isSome)

/-- The `AuthResult` union type of the source. -/
inductive AuthResult where
  | authorized
  | redirect
deriving DecidableEq, Repr

/-- The credential scopes of `invalidateCredentials`. -/
inductive CredScope where
  | all
  | client
  | tokensScope
  | verifier
deriving DecidableEq, Repr

/-- The sub-operations `authInternal` dispatches to. -/
inductive SubOp where
  | prmDiscovery
  | asDiscovery
  | register
  | exchange
  | refresh
  | start
deriving DecidableEq, Repr

/-- One recorded sub-operation call, together with the `fetchFn` argument
that call site passed (fetch functions are identified by an opaque id;
`none` means the argument was omitted, so the callee defaults to the
global `fetch`). -/
structure SubCall where
  op : SubOp
  fetchArg : Option Nat
deriving DecidableEq, Repr

/-- The options record of `auth` / `authInternal`. -/
structure AuthArgs where
  serverUrl : Url
  authorizationCode : Option String := none
  scope : Option String := none
  resourceMetadataUrl : Option Url := none
  fetchFn : Option Nat := none

/-- The oracle environment for one pass of `authInternal`: the outcome each
sub-operation and provider capability would produce.  The sub-operations
are abstracted by their results; `authInternal` below records which
`fetchFn` argument each call site hands them. -/
structure Env where
  prmResult : Except AuthError PRMeta := .error .notImplementedPRM
  asMetaResult : Except AuthError (Option ASMeta) := .ok none
  validateResourcePresent : Bool := true
  validateResourceResult : Option Url := none
  resourceAllowed : Bool := true
  clientInformation : Option ClientInfo := none
  canSaveClientInformation : Bool := true
  registerResult : Except AuthError ClientInfo := .error .fetchThrew
  tokens : Option OAuthTokens := none
  exchangeResult : Except AuthError OAuthTokens := .error .fetchThrew
  refreshResult : Except AuthError OAuthTokens := .error .fetchThrew
  startResult : Except AuthError (Url × String) := .error .fetchThrew

/-- The final branch of `authInternal` (auth.ts lines 413-427): start a new
authorization flow and redirect.  `startAuthorization` performs no HTTP
request and receives no fetch function. -/
def authNewAuthBranch (env : Env) (trace : List SubCall) :
    Except AuthError AuthResult × List SubCall :=
  match env.startResult with
  | .error e => (.error e, trace ++ [⟨.start, none⟩])
  | .ok _ => (.ok .redirect, trace ++ [⟨.start, none⟩])

/-- The exchange/refresh branch of `authInternal` (auth.ts lines 368-411):
with an authorization code, exchange it (forwarding `fetchFn`); otherwise
refresh when a refresh token exists — the `refreshAuthorization` call at
lines 392-398 passes no `fetchFn` — swallowing failures that are not
OAuth-taxonomy errors or are `ServerError`. -/
def authTokenBranch (env : Env) (args : AuthArgs) (trace : List SubCall) :
    Except AuthError AuthResult × List SubCall :=
  match args.authorizationCode with
  | some _ =>
    (match env.exchangeResult with
     | .error e => (.error e, trace ++ [⟨.exchange, args.fetchFn⟩])
     | .ok _ => (.ok .authorized, trace ++ [⟨.exchange, args.fetchFn⟩]))
  | none =>
    match env.tokens with
    | some t =>
      if t.refresh_token.isSome then
        match env.refreshResult with
        | .ok _ => (.ok .authorized, trace ++ [⟨.refresh, none⟩])
        | .error e =>
          if e.isOAuthFamily = false || e = .oauth .serverError then
            authNewAuthBranch env (trace ++ [⟨.refresh, none⟩])
          else (.error e, trace ++ [⟨.refresh, none⟩])
      else authNewAuthBranch env trace
    | none => authNewAuthBranch env trace

/-- Embedding of `authInternal` (auth.ts lines 307-428) as a state machine
over the oracle environment, recording each sub-operation call together
with the `fetchFn` argument the source hands to it: protected-resource
discovery (line 326), authorization-server discovery (lines 344-346) and
the code exchange (line 379) receive the caller's `fetchFn`; the
`registerClient` call (lines 359-362) and the refresh call omit it. -/
def authInternal (env : Env) (args : AuthArgs) :
    Except AuthError AuthResult × List SubCall :=
  let prmTrace : List SubCall := [⟨.prmDiscovery, args.fetchFn⟩]
  let resourceMetadata : Option PRMeta :=
    match env.prmResult with
    | .ok m => some m
    | .error _ => none
  let resourceStep : Except AuthError (Option Url) :=
    if env.validateResourcePresent then .ok env.validateResourceResult
    else
      match resourceMetadata with
      | none => .ok none
      | some m => if env.resourceAllowed then .ok (some m.resource) else .error .resourceMismatch
  match resourceStep with
  | .error e => (.error e, prmTrace)
  | .ok _ =>
    let trace2 := prmTrace ++ [⟨.asDiscovery, args.fetchFn⟩]
    match env.asMetaResult with
    | .error e => (.error e, trace2)
    | .ok _ =>
      match env.clientInformation with
      | some _ => authTokenBranch env args trace2
      | none =>
        if args.authorizationCode.isSome then (.error .stateMissingClientInfo, trace2)
        else if env.canSaveClientInformation = false then (.error .registrationNotSaveable, trace2)
        else
          match env.registerResult with
          | .error e => (.error e, trace2 ++ [⟨.register, none⟩])
          | .ok _ => authTokenBranch env args (trace2 ++ [⟨.register, none⟩])

/-- Embedding of `auth` (auth.ts lines 281-305): run the inner flow once;
on `InvalidClientError` or `UnauthorizedClientError` invalidate scope
`all` and retry once, on `InvalidGrantError` invalidate scope `tokens`
and retry once, otherwise rethrow.  The result carries the requested
credential invalidations and the number of inner-flow invocations. -/
def auth (env1 env2 : Env) (args : AuthArgs) :
    Except AuthError AuthResult × List CredScope × Nat :=
  match (authInternal env1 args).1 with
  | .ok r => (.ok r, [], 1)
  | .error e =>
    if e = .oauth .invalidClient ∨ e = .oauth .unauthorizedClient then
      ((authInternal env2 args).1, [.all], 2)
    else if e = .oauth .invalidGrant then
      ((authInternal env2 args).1, [.tokensScope], 2)
    else (.error e, [], 1)

/-- A concrete environment whose refresh attempt fails with
`invalid_grant` (tokens with a refresh token are stored, the refresh
oracle reports the OAuth error). -/
def envRefreshInvalidGrant : Env :=
  ⟨.error .notImplementedPRM, .ok none, true, none, true, some ⟨"abc", none⟩, true,
    .error .fetchThrew, some ⟨"A1", some "Bearer", some "R1", none, none⟩,
    .error .fetchThrew, .error (.oauth .invalidGrant), .error .fetchThrew⟩

/-- A concrete environment whose flow reaches a successful redirect. -/
def envStartRedirect : Env :=
  ⟨.error .notImplementedPRM, .ok none, true, none, true, some ⟨"abc", none⟩, true,
    .error .fetchThrew, none, .error .fetchThrew, .error .fetchThrew,
    .ok (⟨"https://as.example", ("/authorize").toList, []⟩, "v")⟩

/-- Concrete plain `auth` options. -/
def authArgsPlain : AuthArgs :=
  ⟨⟨"https://srv.example", ("/").toList, []⟩, none, none, none, none⟩

/-! ## Helper lemmas -/

theorem stripTrailing_facts (p : List Char) (h1 : p.head? = some '/') (h2 : p ≠ ['/']) :
    (stripTrailing p).head? = some '/' ∧ stripTrailing p ≠ [] := by
  cases p with
  | nil => simp at h1
  | cons c t =>
    obtain rfl : c = '/' := by simpa using h1
    cases t with
    | nil => simp at h2
    | cons b t2 =>
      unfold stripTrailing
      split
      · simp
      · simp

theorem wk_ne_one (P : List Char) (h : P ≠ []) : oauthASWellKnown ++ P ≠ oauthASWellKnown := by
  intro he
  have hl := congrArg List.length he
  simp at hl
  exact h hl

theorem wk_ne_two (P : List Char) : oauthASWellKnown ++ P ≠ oidcWellKnown ++ P := by
  intro he
  have : oauthASWellKnown = oidcWellKnown := List.append_cancel_right he
  exact absurd this (by decide)

theorem wk_ne_three (P : List Char) : oauthASWellKnown ++ P ≠ P ++ oidcWellKnown := by
  intro he
  have hl := congrArg List.length he
  have h1 : oauthASWellKnown.length = 39 := by decide
  have h2 : oidcWellKnown.length = 33 := by decide
  simp [h1, h2] at hl
  omega

theorem wk_ne_four (P : List Char) (h : P.head? = some '/') :
    oauthASWellKnown ≠ oidcWellKnown ++ P := by
  intro he
  have hlen : oidcWellKnown.length = 33 := by decide
  have h2 : oauthASWellKnown.drop 33 = P := by
    rw [he, ← hlen, List.drop_left]
  have h3 : oauthASWellKnown.drop 33 = ("server").toList := by decide
  rw [h3] at h2
  rw [← h2] at h
  simp at h

theorem wk_ne_five (P : List Char) (h : P.head? = some '/') :
    oauthASWellKnown ≠ P ++ oidcWellKnown := by
  intro he
  have hl := congrArg List.length he
  have h1 : oauthASWellKnown.length = 39 := by decide
  have h2 : oidcWellKnown.length = 33 := by decide
  simp [h1, h2] at hl
  have hlen : P.length = 6 := by omega
  have h3 : oauthASWellKnown.drop 6 = oidcWellKnown := by
    rw [he, ← hlen, List.drop_left]
  exact absurd h3 (by decide)

/-! ## Claim theorems -/

/-- C2: for every ClientInformation and server-advertised method list, the
selector returns exactly the decision-table method, never returns
`client_secret_basic` without a secret, and applying basic authentication
without a secret fails with the missing-secret error. -/
theorem selectClientAuthMethod_matches_decision_table
    (clientInformation : ClientInfo) (supportedMethods : List String) :
    selectClientAuthMethod clientInformation supportedMethods =
      specClientAuthDecision clientInformation supportedMethods ∧
    (selectClientAuthMethod clientInformation supportedMethods = .client_secret_basic →
      clientInformation.client_secret.isSome = true) ∧
    (∀ clientId headers, applyBasicAuth clientId none headers = .error .missingClientSecret) := by
  refine ⟨?_, ?_, fun _ _ => rfl⟩
  · cases supportedMethods with
    | nil => simp [selectClientAuthMethod, specClientAuthDecision]
    | cons a l =>
      simp only [selectClientAuthMethod, specClientAuthDecision, List.isEmpty_cons,
        List.length_cons, Bool.and_comm]
      split <;> simp_all
  · intro h
    by_cases hs : clientInformation.client_secret.isSome
    · exact hs
    · exfalso
      simp only [selectClientAuthMethod, hs, Bool.false_and, if_false] at h
      split at h <;> simp_all

/-- C2 witness: the theorem applied at a concrete client and method list. -/
theorem selectClientAuthMethod_witness :
    selectClientAuthMethod ⟨"abc", some "shh"⟩ ["client_secret_basic"] =
      specClientAuthDecision ⟨"abc", some "shh"⟩ ["client_secret_basic"] ∧
    applyBasicAuth "abc" none [] = .error .missingClientSecret :=
  ⟨(selectClientAuthMethod_matches_decision_table ⟨"abc", some "shh"⟩ ["client_secret_basic"]).1,
   (selectClientAuthMethod_matches_decision_table ⟨"abc", some "shh"⟩
     ["client_secret_basic"]).2.2 "abc" []⟩

/-- C1 (amended): for a URL with path `/` the builder returns exactly the
two-entry list (oauth then oidc, duplicate free); for any other path it
returns exactly the four-entry list of the claim with P the path stripped
of a trailing slash, and that list is duplicate free if and only if
P does not commute with `/.well-known/openid-configuration` under
concatenation — when it does (for example when the input path is itself
`/.well-known/openid-configuration`), entries three and four coincide.  In
every case the first entry is an OAuth endpoint.  The hypotheses restrict
to pathnames in the domain where the URL-resolution model is faithful
(starting with a single slash). -/
theorem buildDiscoveryUrls_spec (u : Url)
    (hhead : u.pathname.head? = some '/') (hplain : u.pathname.take 2 ≠ ['/', '/']) :
    (u.pathname = ['/'] →
      buildDiscoveryUrls u =
        [⟨⟨u.origin, oauthASWellKnown, []⟩, .oauth⟩,
         ⟨⟨u.origin, oidcWellKnown, []⟩, .oidc⟩] ∧
      ((buildDiscoveryUrls u).map DiscoveryEntry.url).Nodup) ∧
    (u.pathname ≠ ['/'] →
      buildDiscoveryUrls u =
        [⟨⟨u.origin, oauthASWellKnown ++ stripTrailing u.pathname, []⟩, .oauth⟩,
         ⟨⟨u.origin, oauthASWellKnown, []⟩, .oauth⟩,
         ⟨⟨u.origin, oidcWellKnown ++ stripTrailing u.pathname, []⟩, .oidc⟩,
         ⟨⟨u.origin, stripTrailing u.pathname ++ oidcWellKnown, []⟩, .oidc⟩] ∧
      (((buildDiscoveryUrls u).map DiscoveryEntry.url).Nodup ↔
        oidcWellKnown ++ stripTrailing u.pathname ≠
          stripTrailing u.pathname ++ oidcWellKnown)) ∧
    ((buildDiscoveryUrls u).head?.map DiscoveryEntry.type = some .oauth) := by
  by_cases hroot : u.pathname = ['/']
  · refine ⟨fun _ => ⟨?_, ?_⟩, fun hne => absurd hroot hne, ?_⟩
    · simp [buildDiscoveryUrls, hroot]
    · simp [buildDiscoveryUrls, hroot, Url.mk.injEq]
      decide
    · simp [buildDiscoveryUrls, hroot]
  · obtain ⟨hPhead, hPne⟩ := stripTrailing_facts u.pathname hhead hroot
    have hlist : buildDiscoveryUrls u =
        [⟨⟨u.origin, oauthASWellKnown ++ stripTrailing u.pathname, []⟩, .oauth⟩,
         ⟨⟨u.origin, oauthASWellKnown, []⟩, .oauth⟩,
         ⟨⟨u.origin, oidcWellKnown ++ stripTrailing u.pathname, []⟩, .oidc⟩,
         ⟨⟨u.origin, stripTrailing u.pathname ++ oidcWellKnown, []⟩, .oidc⟩] := by
      simp [buildDiscoveryUrls, hroot]
    refine ⟨fun h => absurd h hroot, fun _ => ⟨hlist, ?_⟩, ?_⟩
    · rw [hlist]
      simp only [List.map_cons, List.map_nil, List.nodup_cons, List.mem_cons,
        List.mem_singleton, List.not_mem_nil, or_false, not_or, List.nodup_nil, and_true,
        Url.mk.injEq, true_and, and_true]
      constructor
      · rintro ⟨-, -, h34, -⟩
        exact h34
      · intro h34
        exact ⟨⟨wk_ne_one _ hPne, wk_ne_two _, wk_ne_three _⟩,
          ⟨wk_ne_four _ hPhead, wk_ne_five _ hPhead⟩, h34, not_false⟩
    · rw [hlist]
      simp

/-- C1 counterexample: at the input URL whose path is itself
`/.well-known/openid-configuration`, the emitted list contains duplicate
URLs (entries three and four coincide), refuting the claim's no-duplicates
clause. -/
theorem buildDiscoveryUrls_duplicate_counterexample :
    ¬ ((buildDiscoveryUrls
        ⟨"https://example.com", ("/.well-known/openid-configuration").toList, []⟩).map
          DiscoveryEntry.url).Nodup := by
  decide

/-- C1 witness: the theorem applied at a concrete pathful URL. -/
theorem buildDiscoveryUrls_witness :
    buildDiscoveryUrls ⟨"https://example.com", ("/tenant1").toList, []⟩ =
      [⟨⟨"https://example.com", oauthASWellKnown ++ ("/tenant1").toList, []⟩, .oauth⟩,
       ⟨⟨"https://example.com", oauthASWellKnown, []⟩, .oauth⟩,
       ⟨⟨"https://example.com", oidcWellKnown ++ ("/tenant1").toList, []⟩, .oidc⟩,
       ⟨⟨"https://example.com", ("/tenant1").toList ++ oidcWellKnown, []⟩, .oidc⟩] := by
  have h := (buildDiscoveryUrls_spec
    ⟨"https://example.com", ("/tenant1").toList, []⟩ (by decide) (by decide)).2.1 (by decide)
  exact h.1.trans (by decide)

theorem parseOAuthTokens_refresh (b : TokenRespBody) (t : OAuthTokens)
    (h : parseOAuthTokens b = some t) : t.refresh_token = b.refresh_token := by
  unfold parseOAuthTokens at h
  split at h
  · simp at h
  · simp only [Option.some.injEq] at h
    subst h
    rfl

theorem refreshAuthorization_ok_parse
    (authorizationServerUrl : Url) (metadata : Option ASMeta)
    (clientInformation : ClientInfo) (refreshToken : String) (resource : Option Url)
    (useCustom : Bool) (response : Resp TokenRespBody) (t : OAuthTokens)
    (h : refreshAuthorization authorizationServerUrl metadata clientInformation refreshToken
      resource useCustom response = .ok t) :
    parseOAuthTokens
      { response.body with
        refresh_token := some (response.body.refresh_token.getD refreshToken) } = some t := by
  simp only [refreshAuthorization] at h
  split at h
  · simp at h
  · split at h
    · simp at h
    · split at h
      · split at h
        · rename_i t' heq
          simp only [Except.ok.injEq] at h
          rw [← h]
          exact heq
        · simp at h
      · simp at h

/-- C3: every successful refresh returns a tokens object whose
`refresh_token` is the response's when the 2xx response carries one and the
previously held token `refreshToken` when the response omits it, i.e.
`returned.refresh_token = response.refresh_token ?? refreshToken`. -/
theorem refreshAuthorization_refresh_token_carry
    (authorizationServerUrl : Url) (metadata : Option ASMeta)
    (clientInformation : ClientInfo) (refreshToken : String) (resource : Option Url)
    (useCustom : Bool) (response : Resp TokenRespBody) (t : OAuthTokens)
    (h : refreshAuthorization authorizationServerUrl metadata clientInformation refreshToken
      resource useCustom response = .ok t) :
    t.refresh_token = some (response.body.refresh_token.getD refreshToken) := by
  have hp := refreshAuthorization_ok_parse authorizationServerUrl metadata clientInformation
    refreshToken resource useCustom response t h
  simpa using parseOAuthTokens_refresh _ _ hp

/-- C3 witness: the theorem applied at a concrete successful refresh whose
response omits `refresh_token`. -/
theorem refreshAuthorization_witness :
    (⟨"A2", some "Bearer", some "R1", none, none⟩ : OAuthTokens).refresh_token =
      some ((⟨200, ⟨some "A2", some "Bearer", none, none, none, none⟩⟩ :
        Resp TokenRespBody).body.refresh_token.getD "R1") :=
  refreshAuthorization_refresh_token_carry ⟨"https://example.com", ("/").toList, []⟩ none
    ⟨"abc", none⟩ "R1" none false ⟨200, ⟨some "A2", some "Bearer", none, none, none, none⟩⟩
    ⟨"A2", some "Bearer", some "R1", none, none⟩ (by decide)

/-- C4 (amended): protected-resource discovery first requests
`/.well-known/oauth-protected-resource{path}`; when that attempt is absent
(no response, or HTTP 404 with path not `/`) it falls back to the root
well-known URL at the origin; it fails with the NotImplemented-kind error
when both attempts yield 404, fails with the same NotImplemented-kind
error (not a Transport-kind one) when both attempts yield CORS-style
failure, fails with a Server-kind error on any other non-2xx final
response, and returns the parsed metadata on a 2xx. -/
theorem discoverOAuthProtectedResourceMetadata_spec
    (serverUrl : Url) (oracle : FetchOracle PRMeta) :
    ((discoverOAuthProtectedResourceMetadata serverUrl none oracle).2.head? =
      some (prmPathUrl serverUrl)) ∧
    (∀ r1, fetchWithCorsRetry (oracle (prmPathUrl serverUrl)) = .ok r1 →
      (discoverOAuthProtectedResourceMetadata serverUrl none oracle).2 =
        (if shouldAttemptFallback r1 serverUrl.pathname then
          [prmPathUrl serverUrl, prmRootUrl serverUrl]
         else [prmPathUrl serverUrl])) ∧
    (∀ r1 r2, fetchWithCorsRetry (oracle (prmPathUrl serverUrl)) = .ok (some r1) →
      r1.status = 404 → serverUrl.pathname ≠ ['/'] →
      fetchWithCorsRetry (oracle (prmRootUrl serverUrl)) = .ok (some r2) →
      r2.status = 404 →
      (discoverOAuthProtectedResourceMetadata serverUrl none oracle).1 =
        .error .notImplementedPRM) ∧
    (fetchWithCorsRetry (oracle (prmPathUrl serverUrl)) = .ok none →
      fetchWithCorsRetry (oracle (prmRootUrl serverUrl)) = .ok none →
      (discoverOAuthProtectedResourceMetadata serverUrl none oracle).1 =
        .error .notImplementedPRM) ∧
    (∀ r1, fetchWithCorsRetry (oracle (prmPathUrl serverUrl)) = .ok (some r1) →
      r1.status ≠ 404 → respOk r1.status = false →
      (discoverOAuthProtectedResourceMetadata serverUrl none oracle).1 =
        .error (.httpPRM r1.status)) ∧
    (∀ r1 r2, fetchWithCorsRetry (oracle (prmPathUrl serverUrl)) = .ok r1 →
      shouldAttemptFallback r1 serverUrl.pathname = true →
      fetchWithCorsRetry (oracle (prmRootUrl serverUrl)) = .ok (some r2) →
      r2.status ≠ 404 → respOk r2.status = false →
      (discoverOAuthProtectedResourceMetadata serverUrl none oracle).1 =
        .error (.httpPRM r2.status)) ∧
    (∀ r1, fetchWithCorsRetry (oracle (prmPathUrl serverUrl)) = .ok (some r1) →
      shouldAttemptFallback (some r1) serverUrl.pathname = false →
      respOk r1.status = true →
      (discoverOAuthProtectedResourceMetadata serverUrl none oracle).1 = .ok r1.body) := by
  have hD : ∀ e, fetchWithCorsRetry (oracle (prmPathUrl serverUrl)) = .error e →
      discoverMetadataWithFallback serverUrl "oauth-protected-resource" oracle none =
        (.error e, [prmPathUrl serverUrl]) := by
    intro e hf
    unfold discoverMetadataWithFallback
    simp only [prmPathUrl] at hf
    simp only [prmPathUrl, prmRootUrl]
    rw [hf]
  have hC : ∀ r1, fetchWithCorsRetry (oracle (prmPathUrl serverUrl)) = .ok r1 →
      shouldAttemptFallback r1 serverUrl.pathname = false →
      discoverMetadataWithFallback serverUrl "oauth-protected-resource" oracle none =
        (.ok r1, [prmPathUrl serverUrl]) := by
    intro r1 hf hs
    unfold discoverMetadataWithFallback
    simp only [prmPathUrl] at hf
    simp only [prmPathUrl, prmRootUrl]
    rw [hf]
    simp [hs]
  have hA : ∀ r1 e2, fetchWithCorsRetry (oracle (prmPathUrl serverUrl)) = .ok r1 →
      shouldAttemptFallback r1 serverUrl.pathname = true →
      fetchWithCorsRetry (oracle (prmRootUrl serverUrl)) = .error e2 →
      discoverMetadataWithFallback serverUrl "oauth-protected-resource" oracle none =
        (.error e2, [prmPathUrl serverUrl, prmRootUrl serverUrl]) := by
    intro r1 e2 hf hs hf2
    unfold discoverMetadataWithFallback
    simp only [prmPathUrl, prmRootUrl] at hf hf2
    simp only [prmPathUrl, prmRootUrl]
    rw [hf]
    simp [hs, hf2]
  have hB : ∀ r1 r2, fetchWithCorsRetry (oracle (prmPathUrl serverUrl)) = .ok r1 →
      shouldAttemptFallback r1 serverUrl.pathname = true →
      fetchWithCorsRetry (oracle (prmRootUrl serverUrl)) = .ok r2 →
      discoverMetadataWithFallback serverUrl "oauth-protected-resource" oracle none =
        (.ok r2, [prmPathUrl serverUrl, prmRootUrl serverUrl]) := by
    intro r1 r2 hf hs hf2
    unfold discoverMetadataWithFallback
    simp only [prmPathUrl, prmRootUrl] at hf hf2
    simp only [prmPathUrl, prmRootUrl]
    rw [hf]
    simp [hs, hf2]
  have hdm : ∀ res tr,
      discoverMetadataWithFallback serverUrl "oauth-protected-resource" oracle none = (res, tr) →
      discoverOAuthProtectedResourceMetadata serverUrl none oracle =
        ((match res with
          | .error e => .error e
          | .ok none => .error .notImplementedPRM
          | .ok (some resp) =>
            if resp.status == 404 then .error .notImplementedPRM
            else if respOk resp.status then .ok resp.body
            else .error (.httpPRM resp.status)), tr) := by
    intro res tr hres
    unfold discoverOAuthProtectedResourceMetadata
    rw [hres]
    rcases res with e | r
    · rfl
    · rcases r with _ | resp
      · rfl
      · by_cases h4 : (resp.status == 404) = true
        · simp [h4]
        · by_cases hok2 : respOk resp.status = true
          · simp [h4, hok2]
          · simp [h4, hok2]
  refine ⟨?_, ?_, ?_, ?_, ?_, ?_, ?_⟩
  · rcases hf : fetchWithCorsRetry (oracle (prmPathUrl serverUrl)) with e | r1
    · rw [hdm _ _ (hD e hf)]
      rfl
    · by_cases hs : shouldAttemptFallback r1 serverUrl.pathname = true
      · rcases hf2 : fetchWithCorsRetry (oracle (prmRootUrl serverUrl)) with e2 | r2
        · rw [hdm _ _ (hA r1 e2 hf hs hf2)]
          rfl
        · rw [hdm _ _ (hB r1 r2 hf hs hf2)]
          rfl
      · rw [hdm _ _ (hC r1 hf (by simpa using hs))]
        rfl
  · intro r1 hf
    by_cases hs : shouldAttemptFallback r1 serverUrl.pathname = true
    · rcases hf2 : fetchWithCorsRetry (oracle (prmRootUrl serverUrl)) with e2 | r2
      · rw [hdm _ _ (hA r1 e2 hf hs hf2)]
        simp [hs]
      · rw [hdm _ _ (hB r1 r2 hf hs hf2)]
        simp [hs]
    · rw [hdm _ _ (hC r1 hf (by simpa using hs))]
      simp [hs]
  · intro r1 r2 hf h404 hp hf2 h404b
    have hs : shouldAttemptFallback (some r1) serverUrl.pathname = true := by
      simp [shouldAttemptFallback, h404, hp]
    rw [hdm _ _ (hB _ _ hf hs hf2)]
    simp [h404b]
  · intro hf hf2
    have hs : shouldAttemptFallback (none : Option (Resp PRMeta)) serverUrl.pathname = true := rfl
    rw [hdm _ _ (hB _ _ hf hs hf2)]
  · intro r1 hf h404 hok
    have hs : shouldAttemptFallback (some r1) serverUrl.pathname = false := by
      simp [shouldAttemptFallback, h404]
    rw [hdm _ _ (hC _ hf hs)]
    simp [h404, hok]
  · intro r1 r2 hf hs hf2 h404 hok
    rw [hdm _ _ (hB _ _ hf hs hf2)]
    simp [h404, hok]
  · intro r1 hf hs hok
    have hs2 : shouldAttemptFallback (some r1) serverUrl.pathname = false := by
      simp [hs]
    rw [hdm _ _ (hC _ hf hs2)]
    have h404 : ¬ (r1.status = 404) := by
      intro he
      simp [respOk, he] at hok
    simp [h404, hok]

/-- C4 witness: the theorem applied at a concrete oracle where both
attempts yield 404 for a pathful server URL. -/
theorem discoverOAuthProtectedResourceMetadata_witness :
    (discoverOAuthProtectedResourceMetadata ⟨"https://srv.example", ("/mcp").toList, []⟩ none
      (fun _ _ => .success ⟨404, ⟨⟨"https://srv.example", ("/mcp").toList, []⟩, none⟩⟩)).1 =
      .error .notImplementedPRM :=
  (discoverOAuthProtectedResourceMetadata_spec ⟨"https://srv.example", ("/mcp").toList, []⟩
    (fun _ _ => .success ⟨404, ⟨⟨"https://srv.example", ("/mcp").toList, []⟩, none⟩⟩)).2.2.1
    ⟨404, ⟨⟨"https://srv.example", ("/mcp").toList, []⟩, none⟩⟩
    ⟨404, ⟨⟨"https://srv.example", ("/mcp").toList, []⟩, none⟩⟩
    rfl rfl (by decide) rfl rfl

/-- C4 counterexample: when both attempts are CORS-style failures the
function fails with the NotImplemented-kind error, not a Transport-kind
error as the claim states. -/
theorem discoverOAuthProtectedResourceMetadata_cors_counterexample :
    (discoverOAuthProtectedResourceMetadata ⟨"https://srv.example", ("/mcp").toList, []⟩ none
      (fun _ _ => (.typeError : FetchAttempt PRMeta))).1 = .error .notImplementedPRM ∧
    AuthError.isTransport .notImplementedPRM = false := by
  constructor
  · rfl
  · rfl

/-- C5: authorization-server discovery iterates the discovery URL list in
order; for each candidate a CORS failure persisting after the headerless
retry fails the whole discovery with a transport error naming that
candidate, any 4xx continues with the next candidate, any other non-2xx is
fatal, and a 2xx is returned per the candidate kind except that an OIDC
response without `S256` support is fatal with the Incompatible-kind error;
if every candidate yields 4xx the result is absent. -/
theorem discoverAuthorizationServerMetadata_spec (authorizationServerUrl : Url)
    (oracle : FetchOracle ASMeta) :
    (discoverAuthorizationServerMetadata authorizationServerUrl oracle =
      discoverASLoop oracle (buildDiscoveryUrls authorizationServerUrl)) ∧
    (∀ (e : DiscoveryEntry) rest, oracle e.url true = .typeError →
      oracle e.url false = .typeError →
      discoverASLoop oracle (e :: rest) = .error (.corsDiscovery e.url e.type)) ∧
    (∀ (e : DiscoveryEntry) rest r, fetchWithCorsRetry (oracle e.url) = .ok (some r) →
      400 ≤ r.status → r.status < 500 →
      discoverASLoop oracle (e :: rest) = discoverASLoop oracle rest) ∧
    (∀ (e : DiscoveryEntry) rest r, fetchWithCorsRetry (oracle e.url) = .ok (some r) →
      respOk r.status = false → ¬ (400 ≤ r.status ∧ r.status < 500) →
      discoverASLoop oracle (e :: rest) = .error (.httpDiscovery r.status e.url e.type)) ∧
    (∀ (e : DiscoveryEntry) rest r, e.type = .oauth →
      fetchWithCorsRetry (oracle e.url) = .ok (some r) → respOk r.status = true →
      discoverASLoop oracle (e :: rest) = .ok (some r.body)) ∧
    (∀ (e : DiscoveryEntry) rest r, e.type = .oidc →
      fetchWithCorsRetry (oracle e.url) = .ok (some r) → respOk r.status = true →
      discoverASLoop oracle (e :: rest) =
        (if (r.body.code_challenge_methods_supported.getD []).contains "S256" then
          .ok (some r.body)
         else .error (.incompatibleOidc e.url))) ∧
    (∀ l, (∀ e, e ∈ l → ∃ r, fetchWithCorsRetry (oracle e.url) = .ok (some r) ∧
        400 ≤ r.status ∧ r.status < 500) →
      discoverASLoop oracle l = .ok none) := by
  have hstep : ∀ (e : DiscoveryEntry) rest r,
      fetchWithCorsRetry (oracle e.url) = .ok (some r) →
      400 ≤ r.status → r.status < 500 →
      discoverASLoop oracle (e :: rest) = discoverASLoop oracle rest := by
    intro e rest r hf h1 h2
    have hok : respOk r.status = false := by
      simp only [respOk]
      simp
      omega
    simp only [discoverASLoop]
    rw [hf]
    simp [hok, h1, h2]
  refine ⟨rfl, ?_, hstep, ?_, ?_, ?_, ?_⟩
  · intro e rest h1 h2
    have hf : fetchWithCorsRetry (oracle e.url) = .ok none := by
      unfold fetchWithCorsRetry
      rw [h1, h2]
    simp only [discoverASLoop]
    rw [hf]
  · intro e rest r hf hok h45
    simp only [discoverASLoop]
    rw [hf]
    have h45b : (400 ≤ r.status && r.status < 500) = false := by
      simpa using fun ha hb => h45 ⟨ha, hb⟩
    simp [hok, h45b]
  · intro e rest r htype hf hok
    simp only [discoverASLoop]
    rw [hf]
    simp [hok, htype]
  · intro e rest r htype hf hok
    simp only [discoverASLoop]
    rw [hf]
    simp [hok, htype]
  · intro l hall
    induction l with
    | nil => rfl
    | cons e t ih =>
      obtain ⟨r, hf, h1, h2⟩ := hall e (by simp)
      rw [hstep e t r hf h1 h2]
      exact ih (fun x hx => hall x (by simp [hx]))

/-- C5 witness: the theorem applied at a concrete candidate whose CORS
failure persists after the headerless retry. -/
theorem discoverAuthorizationServerMetadata_witness :
    discoverASLoop (fun _ _ => (.typeError : FetchAttempt ASMeta))
      [⟨⟨"https://as.example", ("/.well-known/oauth-authorization-server").toList, []⟩, .oauth⟩] =
      .error (.corsDiscovery
        ⟨"https://as.example", ("/.well-known/oauth-authorization-server").toList, []⟩ .oauth) :=
  (discoverAuthorizationServerMetadata_spec
    ⟨"https://as.example", ("/").toList, []⟩ (fun _ _ => .typeError)).2.1
    ⟨⟨"https://as.example", ("/.well-known/oauth-authorization-server").toList, []⟩, .oauth⟩
    [] rfl rfl

/-- C6: the entry point runs the inner flow once; exactly on
`InvalidClientError` or `UnauthorizedClientError` it invalidates scope
`all` and retries exactly once, exactly on `InvalidGrantError` it
invalidates scope `tokens` and retries exactly once, any other error
propagates unchanged, and an error of the single retry is re-raised as is
with no further invalidation or retry. -/
theorem auth_recovery_spec (env1 env2 : Env) (args : AuthArgs) :
    (∀ r, (authInternal env1 args).1 = .ok r → auth env1 env2 args = (.ok r, [], 1)) ∧
    (∀ e, (authInternal env1 args).1 = .error e →
      ((e = .oauth .invalidClient ∨ e = .oauth .unauthorizedClient) →
        auth env1 env2 args = ((authInternal env2 args).1, [.all], 2)) ∧
      (e = .oauth .invalidGrant →
        auth env1 env2 args = ((authInternal env2 args).1, [.tokensScope], 2)) ∧
      (e ≠ .oauth .invalidClient → e ≠ .oauth .unauthorizedClient →
        e ≠ .oauth .invalidGrant →
        auth env1 env2 args = (.error e, [], 1))) := by
  constructor
  · intro r hr
    simp [auth, hr]
  · intro e he
    refine ⟨?_, ?_, ?_⟩
    · rintro (rfl | rfl) <;> simp [auth, he]
    · rintro rfl
      simp [auth, he]
    · intro h1 h2 h3
      simp [auth, he, h1, h2, h3]

/-- C6 witness: the theorem applied at a concrete pair of environments
where the first pass fails with `invalid_grant` and the retry redirects. -/
theorem auth_recovery_witness :
    auth envRefreshInvalidGrant envStartRedirect authArgsPlain =
      (.ok .redirect, [.tokensScope], 2) := by
  have h := ((auth_recovery_spec envRefreshInvalidGrant envStartRedirect authArgsPlain).2
    (.oauth .invalidGrant) (by decide)).2.1 rfl
  rw [h]
  decide

theorem mem_newAuthBranch (env : Env) (trace : List SubCall) (c : SubCall)
    (hc : c ∈ (authNewAuthBranch env trace).2) : c ∈ trace ∨ c = ⟨.start, none⟩ := by
  unfold authNewAuthBranch at hc
  split at hc <;> simpa using hc

theorem mem_tokenBranch (env : Env) (args : AuthArgs) (trace : List SubCall) (c : SubCall)
    (hc : c ∈ (authTokenBranch env args trace).2) :
    c ∈ trace ∨ c = ⟨.exchange, args.fetchFn⟩ ∨ c = ⟨.refresh, none⟩ ∨
      c = ⟨.start, none⟩ := by
  unfold authTokenBranch authNewAuthBranch at hc
  repeat' split at hc
  all_goals simp only [List.mem_append, List.mem_cons, List.not_mem_nil, or_false] at hc
  all_goals tauto

theorem mem_authInternal (env : Env) (args : AuthArgs) (c : SubCall)
    (hc : c ∈ (authInternal env args).2) :
    c = ⟨.prmDiscovery, args.fetchFn⟩ ∨ c = ⟨.asDiscovery, args.fetchFn⟩ ∨
      c = ⟨.register, none⟩ ∨ c = ⟨.exchange, args.fetchFn⟩ ∨ c = ⟨.refresh, none⟩ ∨
      c = ⟨.start, none⟩ := by
  unfold authInternal at hc
  repeat' split at hc
  all_goals
    first
    | (have h2 := mem_tokenBranch _ _ _ _ hc
       simp only [List.mem_append, List.mem_cons, List.not_mem_nil, or_false] at h2
       tauto)
    | (simp only [List.mem_append, List.mem_cons, List.not_mem_nil, or_false] at hc; tauto)

/-- C10: in every execution of the inner flow, the protected-resource
discovery, authorization-server discovery and authorization-code exchange
calls receive the caller's `fetchFn`, while the token-refresh call is
issued without it (so it falls back to the global fetch). -/
theorem authInternal_fetchFn_forwarding (env : Env) (args : AuthArgs) (c : SubCall)
    (hc : c ∈ (authInternal env args).2) :
    ((c.op = .prmDiscovery ∨ c.op = .asDiscovery ∨ c.op = .exchange) →
      c.fetchArg = args.fetchFn) ∧
    (c.op = .refresh → c.fetchArg = none) := by
  rcases mem_authInternal env args c hc with h | h | h | h | h | h <;> subst h <;>
    constructor <;> simp

/-- C10 witness: the theorem applied at the refresh call recorded by a
concrete run that reaches the refresh branch with a custom fetch id. -/
theorem authInternal_fetchFn_witness :
    (⟨.refresh, none⟩ : SubCall).fetchArg = none :=
  (authInternal_fetchFn_forwarding envRefreshInvalidGrant
    ⟨⟨"https://srv.example", ("/").toList, []⟩, none, none, none, some 7⟩
    ⟨.refresh, none⟩ (by decide)).2 rfl

theorem mem_setParam_iff {x : String × String} (q : List (String × String)) (k v : String)
    (hx : x.1 ≠ k) : x ∈ setParam q k v ↔ x ∈ q := by
  induction q with
  | nil =>
    simp only [setParam, List.mem_singleton, List.not_mem_nil, iff_false]
    intro he
    exact hx (by rw [he])
  | cons p rest ih =>
    by_cases hp : p.1 = k
    · simp only [setParam, hp, if_true]
      constructor
      · intro hm
        rcases List.mem_cons.mp hm with he | hm2
        · exact absurd (by rw [he]) hx
        · exact List.mem_cons_of_mem _ ((List.mem_filter.mp hm2).1)
      · intro hm
        rcases List.mem_cons.mp hm with he | hm2
        · exact absurd (by rw [he]; exact hp) hx
        · exact List.mem_cons_of_mem _ (List.mem_filter.mpr ⟨hm2, by simpa using hx⟩)
    · simp only [setParam, hp, if_false, List.mem_cons, ih]

theorem prompt_mem_buildAuthUrl (base : Url) (clientId : String) (challenge : PkcePair)
    (redirectUrl : String) (state scope : Option String) (resource : Option Url)
    (hq : ("prompt", "consent") ∉ base.query) :
    (("prompt", "consent") ∈
        (buildAuthUrl base clientId challenge redirectUrl state scope resource).query ↔
      scopeHasOfflineAccess scope = true) := by
  unfold buildAuthUrl
  by_cases hoff : scopeHasOfflineAccess scope = true
  · simp only [hoff, if_true]
    rcases resource with _ | r
    · simp [hoff]
    · simp [mem_setParam_iff, hoff]
  · have hoff2 : scopeHasOfflineAccess scope = false := by simpa using hoff
    simp only [hoff2, Bool.false_eq_true, if_false]
    rcases state with _ | st <;> rcases scope with _ | s <;> rcases resource with _ | r <;>
      simp only [] <;>
      first
      | (split_ifs <;> simp [mem_setParam_iff, hq, hoff2])
      | simp [mem_setParam_iff, hq, hoff2]

/-- C7 (amended): with metadata present, `startAuthorization` fails with an
Incompatible-kind error unless `code` is advertised in
`response_types_supported` and `S256` in
`code_challenge_methods_supported`, and on success the authorization URL
is based on `metadata.authorization_endpoint`; with metadata absent the
authorization URL is `/authorize` at the origin of the server URL (the
server URL's own path is dropped by the resolution). -/
theorem startAuthorization_endpoints
    (authorizationServerUrl : Url) (metadata : Option ASMeta) (clientInformation : ClientInfo)
    (redirectUrl : String) (scope state : Option String) (resource : Option Url)
    (challenge : PkcePair) :
    (∀ m, metadata = some m → m.response_types_supported.contains "code" = false →
      startAuthorization authorizationServerUrl metadata clientInformation redirectUrl
        scope state resource challenge = .error .incompatibleResponseType) ∧
    (∀ m, metadata = some m → m.response_types_supported.contains "code" = true →
      (m.code_challenge_methods_supported.getD []).contains "S256" = false →
      startAuthorization authorizationServerUrl metadata clientInformation redirectUrl
        scope state resource challenge = .error .incompatibleCodeChallenge) ∧
    (∀ m url cv, metadata = some m →
      startAuthorization authorizationServerUrl metadata clientInformation redirectUrl
        scope state resource challenge = .ok (url, cv) →
      url.origin = m.authorization_endpoint.origin ∧
      url.pathname = m.authorization_endpoint.pathname ∧ cv = challenge.code_verifier) ∧
    (metadata = none →
      startAuthorization authorizationServerUrl metadata clientInformation redirectUrl
        scope state resource challenge =
        .ok (buildAuthUrl ⟨authorizationServerUrl.origin, ("/authorize").toList, []⟩
          clientInformation.client_id challenge redirectUrl state scope resource,
          challenge.code_verifier) ∧
      (buildAuthUrl ⟨authorizationServerUrl.origin, ("/authorize").toList, []⟩
        clientInformation.client_id challenge redirectUrl state scope resource).origin =
          authorizationServerUrl.origin ∧
      (buildAuthUrl ⟨authorizationServerUrl.origin, ("/authorize").toList, []⟩
        clientInformation.client_id challenge redirectUrl state scope resource).pathname =
          ("/authorize").toList) := by
  refine ⟨?_, ?_, ?_, ?_⟩
  · rintro m rfl hcode
    have hc : ¬ ("code" ∈ m.response_types_supported) := by simpa using hcode
    simp [startAuthorization, hc]
  · rintro m rfl hcode hs256
    have hc : "code" ∈ m.response_types_supported := by simpa using hcode
    have hs : ¬ ("S256" ∈ m.code_challenge_methods_supported.getD []) := by simpa using hs256
    simp [startAuthorization, hc, hs]
  · rintro m url cv rfl h
    simp only [startAuthorization] at h
    split at h
    · simp at h
    · split at h
      · simp at h
      · simp only [Except.ok.injEq, Prod.mk.injEq] at h
        obtain ⟨h1, h2⟩ := h
        subst h1
        subst h2
        exact ⟨rfl, rfl, rfl⟩
  · rintro rfl
    exact ⟨rfl, rfl, rfl⟩

/-- C7 counterexample: for the metadata-absent pathful server URL
`https://srv.example/tenant` the produced authorization URL's path is
`/authorize` — not `/tenant/authorize` as `{serverUrl}/authorize` would
demand. -/
theorem startAuthorization_path_counterexample :
    ((startAuthorization ⟨"https://srv.example", ("/tenant").toList, []⟩ none ⟨"abc", none⟩
      "https://app.example/cb" none none none ⟨"v", "c"⟩).map (fun p => p.1.pathname) =
      .ok (("/authorize").toList)) ∧
    ("/authorize").toList ≠ ("/tenant/authorize").toList := by
  constructor
  · rfl
  · decide

/-- C7 witness: the theorem applied at a concrete metadata-absent call. -/
theorem startAuthorization_endpoints_witness :
    (buildAuthUrl ⟨"https://srv.example", ("/authorize").toList, []⟩ "abc" ⟨"v", "c"⟩
      "https://app.example/cb" none none none).origin = "https://srv.example" ∧
    (buildAuthUrl ⟨"https://srv.example", ("/authorize").toList, []⟩ "abc" ⟨"v", "c"⟩
      "https://app.example/cb" none none none).pathname = ("/authorize").toList :=
  ((startAuthorization_endpoints ⟨"https://srv.example", ("/tenant").toList, []⟩ none
    ⟨"abc", none⟩ "https://app.example/cb" none none none ⟨"v", "c"⟩).2.2.2 rfl).2

/-- C8 (amended): the produced authorization URL's query contains
`prompt=consent` if and only if the supplied scope string contains
`offline_access` as a substring (the source tests with
`String.prototype.includes`, not token-wise); stated for endpoints whose
own query does not already carry a `prompt=consent` entry. -/
theorem startAuthorization_prompt_iff
    (authorizationServerUrl : Url) (metadata : Option ASMeta) (clientInformation : ClientInfo)
    (redirectUrl : String) (scope state : Option String) (resource : Option Url)
    (challenge : PkcePair) (url : Url) (cv : String)
    (hq : match metadata with
          | some m => ("prompt", "consent") ∉ m.authorization_endpoint.query
          | none => True)
    (h : startAuthorization authorizationServerUrl metadata clientInformation redirectUrl
      scope state resource challenge = .ok (url, cv)) :
    (("prompt", "consent") ∈ url.query ↔ scopeHasOfflineAccess scope = true) := by
  rcases metadata with _ | m
  · simp only [startAuthorization, Except.ok.injEq, Prod.mk.injEq] at h
    rw [← h.1]
    exact prompt_mem_buildAuthUrl _ _ _ _ _ _ _ (by simp)
  · simp only [startAuthorization] at h
    split at h
    · simp at h
    · split at h
      · simp at h
      · simp only [Except.ok.injEq, Prod.mk.injEq] at h
        rw [← h.1]
        exact prompt_mem_buildAuthUrl _ _ _ _ _ _ _ (by simpa using hq)

/-- C8 counterexample: with scope `offline_accessx` the produced query
contains `prompt=consent` although `offline_access` is not one of its
space-delimited tokens, refuting the claim's token-wise reading. -/
theorem startAuthorization_prompt_counterexample :
    ((startAuthorization ⟨"https://srv.example", ("/").toList, []⟩ none ⟨"abc", none⟩
        "https://app.example/cb" (some "offline_accessx") none none ⟨"v", "c"⟩).map
          (fun p => p.1.query.contains ("prompt", "consent")) = .ok true) ∧
    ¬ (("offline_access").toList ∈ ("offline_accessx").toList.splitOn ' ') := by
  constructor
  · rfl
  · decide

/-- C8 witness: the theorem applied at a concrete call whose scope is
exactly `offline_access`. -/
theorem startAuthorization_prompt_witness :
    (("prompt", "consent") ∈
        (⟨"https://srv.example", ("/authorize").toList,
          [("response_type", "code"), ("client_id", "abc"), ("code_challenge", "c"),
           ("code_challenge_method", "S256"), ("redirect_uri", "https://app.example/cb"),
           ("scope", "offline_access"), ("prompt", "consent")]⟩ : Url).query ↔
      scopeHasOfflineAccess (some "offline_access") = true) :=
  startAuthorization_prompt_iff ⟨"https://srv.example", ("/").toList, []⟩ none ⟨"abc", none⟩
    "https://app.example/cb" (some "offline_access") none none ⟨"v", "c"⟩
    ⟨"https://srv.example", ("/authorize").toList,
      [("response_type", "code"), ("client_id", "abc"), ("code_challenge", "c"),
       ("code_challenge_method", "S256"), ("redirect_uri", "https://app.example/cb"),
       ("scope", "offline_access"), ("prompt", "consent")]⟩ "v" trivial (by decide)

/-- C9 (amended): `extractResourceMetadataUrl` returns a parsed URL exactly
when the header is present, splitting it on single spaces yields a first
chunk that lowercases to `bearer` AND a non-empty second chunk, and the
header carries a `resource_metadata` parameter whose quoted value parses
as a URL; in every other case it returns `undefined`.  The function is
total, so it never throws. -/
theorem extractResourceMetadataUrl_spec (h : Option String) (u : Url) :
    extractResourceMetadataUrl h = some u ↔
      ∃ s, h = some s ∧
        ((s.toList.splitOn ' ').headD []).map Char.toLower = ("bearer").toList ∧
        (∃ c cs, (s.toList.splitOn ' ')[1]? = some (c :: cs)) ∧
        ∃ rest, afterFirst (("resource_metadata=").toList ++ ['"']) s.toList = some rest ∧
          rest.contains '"' = true ∧
          parseUrlModel (rest.takeWhile (fun c => c ≠ '"')) = some u := by
  rcases h with _ | s
  · simp [extractResourceMetadataUrl]
  · simp only [extractResourceMetadataUrl, Option.some.injEq]
    constructor
    · intro hx
      split at hx
      · rename_i hcond
        simp only [Bool.and_eq_true, beq_iff_eq] at hcond
        refine ⟨s, rfl, hcond.1, ?_, ?_⟩
        · rcases hsch : (s.toList.splitOn ' ')[1]? with _ | sch
          · rw [hsch] at hcond
            simp at hcond
          · rcases sch with _ | ⟨c, cs⟩
            · rw [hsch] at hcond
              simp at hcond
            · exact ⟨c, cs, rfl⟩
        · split at hx
          · simp at hx
          · rename_i rest hrest
            split at hx
            · exact ⟨rest, hrest, by assumption, hx⟩
            · simp at hx
      · simp at hx
    · rintro ⟨s2, hs2, hbearer, ⟨c, cs, hsch⟩, rest, hrest, hquote, hparse⟩
      subst hs2
      have hcond : ((((s.toList.splitOn ' ').headD []).map Char.toLower ==
          ("bearer").toList) &&
          (match (s.toList.splitOn ' ')[1]? with
           | some (_ :: _) => true
           | _ => false)) = true := by
        rw [hsch]
        simp only [Bool.and_true, beq_iff_eq]
        exact hbearer
      rw [if_pos hcond, hrest]
      show (if rest.contains '\"' = true then
          parseUrlModel (rest.takeWhile (fun c => c ≠ '\"')) else none) = some u
      rw [if_pos hquote]
      exact hparse

/-- C9 counterexample: the header with two spaces after the scheme,
`Bearer␣␣resource_metadata="https://srv"`, satisfies the claim's condition
(scheme token `bearer`, parameter present, value parses) yet the function
returns `undefined`, because `split(' ')` yields an empty second chunk and
the `!scheme` guard rejects it. -/
theorem extractResourceMetadataUrl_counterexample :
    extractResourceMetadataUrl (some "Bearer  resource_metadata=\"https://srv\"") = none ∧
    specExtractCondition (some "Bearer  resource_metadata=\"https://srv\"") = true := by
  constructor
  · rfl
  · rfl

/-- C9 witness: the theorem applied at the spec's concrete example header. -/
theorem extractResourceMetadataUrl_witness :
    extractResourceMetadataUrl
      (some "Bearer realm=\"x\", resource_metadata=\"https://srv/p\"") =
      some ⟨"https://srv", ("/p").toList, []⟩ := by
  apply (extractResourceMetadataUrl_spec
    (some "Bearer realm=\"x\", resource_metadata=\"https://srv/p\"")
    ⟨"https://srv", ("/p").toList, []⟩).mpr
  refine ⟨_, rfl, by decide, ⟨'r', ("ealm=\"x\",").toList, by decide⟩,
    ⟨("https://srv/p\"").toList, by decide, by decide, by decide⟩⟩

end MCP
